import Mathlib

/-!
Verification of the S3 storage backend of `daf_fmt_s3`
(`python/lsst/daf/fmt/s3/s3Storage.py`, `python/lsst/daf/fmt/s3/fmtRepositoryCfg.py`,
with the formatters of `tests/test_basics.py`).

The object store is modelled as explicit state: a `Bucket` is an association
list from object key to byte body, and a `World` maps bucket names to buckets.
Python exceptions are modelled with `Except S3Error`; the distinct constructors
of `S3Error` record which Python exception is raised (several of them are
`RuntimeError` in the source, distinguished there only by message).
External library behaviour that the code relies on (botocore's client-side
bucket-name validation, `urllib.parse.urlparse`) is embedded faithfully where
the code's observable behaviour depends on it; pieces of the wider framework
(`lsst.daf.persistence`) that are not part of this repository are modelled
from the spec and marked as such.
-/

namespace DafFmtS3

/-- Byte strings stored in the object store, modelled as lists of naturals. -/
abbrev Bytes := List Nat

/-- Contents of one S3 bucket: an association list from object key to body.
Lookups take the first matching entry, and `put_object` conses a fresh entry
while dropping the old one, so at most one entry per key is live. -/
abbrev Bucket := List (String × Bytes)

/-- The worlds of buckets visible to the S3 client: bucket name to contents. -/
abbrev World := List (String × Bucket)

/-- Models `bucket.put_object(Key=key, Body=body)`: stores `body` under `key`,
unconditionally overwriting any previous object at that key. -/
def put_object (b : Bucket) (key : String) (body : Bytes) : Bucket :=
  (key, body) :: b.filter (fun e => !(e.1 == key))

/-- Models `bucket.download_file(key, ...)`: the body stored at `key`, or
`none` when the key is absent (boto3 raises `botocore.exceptions.ClientError`,
which the callers in this repository catch). -/
def download_file (b : Bucket) (key : String) : Option Bytes :=
  (b.find? (fun e => e.1 == key)).map (fun e => e.2)

/-- Models `bucket.objects.filter(Prefix=p)`: the keys of the bucket that have
`p` as a (character-wise) prefix. -/
def objectsFilter (b : Bucket) (p : String) : List String :=
  (b.map (fun e => e.1)).filter (fun k => p.toList.isPrefixOf k.toList)

/-- Models `s3.create_bucket(Bucket=name)`: creates an empty bucket if `name`
is absent; a no-op when the bucket already exists (as for a bucket the caller
owns in the default region, and in the moto mock used by the tests). -/
def create_bucket (w : World) (name : String) : World :=
  if (w.find? (fun e => e.1 == name)).isSome then w else (name, []) :: w

/-- The bucket currently stored under `name`, if any. -/
def getBucket (w : World) (name : String) : Option Bucket :=
  (w.find? (fun e => e.1 == name)).map (fun e => e.2)

/-- Replace the contents of bucket `name` (first entry wins on lookup). -/
def setBucket (w : World) (name : String) (b : Bucket) : World :=
  (name, b) :: w

/-- The Python exceptions the embedded code can raise. -/
inductive S3Error where
  /-- `RuntimeError("S3Storage does not support scheme:...")` from `__init__`. -/
  | schemeError
  /-- `dafPersist.NoRepositroyAtRoot` (name as spelled in the source). -/
  | noRepositroyAtRoot
  /-- `RuntimeError("No write formatter registered with S3Storage for ...")`. -/
  | noWriteFormatter
  /-- `RuntimeError("No read formatter registered with S3Storage for ...")`. -/
  | noReadFormatter
  /-- `botocore.exceptions.ClientError` escaping uncaught. -/
  | clientError
  /-- Python `IndexError` from indexing an empty list. -/
  | indexError
deriving DecidableEq, Repr

/-! ## Python string primitives

Paths and keys are Python `str` values; the operations the source uses
(`str.rfind`, slicing, `str.endswith`, `str.lstrip`, `str.upper`) are embedded
on the underlying character lists. -/

/-- Models Python `s.rfind(c)`: the largest index at which `c` occurs in `s`,
or `-1` when `c` does not occur. -/
def pyRfind : List Char → Char → Int
  | [], _ => -1
  | a :: rest, c =>
    let r := pyRfind rest c
    if r ≥ 0 then r + 1
    else if a == c then 0 else -1

/-- Models the Python slice `s[:i]` (with the usual negative-index rule). -/
def pySliceTo (s : List Char) (i : Int) : List Char :=
  if i < 0 then s.take (s.length - i.natAbs) else s.take i.toNat

/-- Models `s.lstrip('/')`: drop every leading `'/'`. -/
def lstripSlash (s : List Char) : List Char :=
  s.dropWhile (fun c => c == '/')

/-- Models Python `s.upper()` for the ASCII strings involved here. -/
def pyUpper (s : String) : String :=
  String.mk (s.toList.map Char.toUpper)

/-! ## `urllib.parse.urlparse`

The constructor parses its URI with `urllib.parse.urlparse` and uses the
`scheme`, `netloc` and `path` fields.  The embedding follows the stdlib
algorithm on the fragment-free, query-free URIs this backend handles:
a scheme is a nonempty prefix of scheme characters, starting with a letter,
terminated by `':'` (and is lowercased); if the remainder starts with `//`,
the netloc runs up to the next `'/'`, `'?'` or `'#'`; the rest is the path. -/

/-- Characters allowed in a URL scheme after the initial letter. -/
def isSchemeChar (c : Char) : Bool :=
  c.isAlphanum || c == '+' || c == '-' || c == '.'

/-- Scan an initial `scheme ':'` prefix: `some (scheme, rest)` when the input
starts with a (possibly empty) run of scheme characters followed by `':'`. -/
def scanScheme : List Char → Option (List Char × List Char)
  | [] => none
  | c :: rest =>
    if c == ':' then some ([], rest)
    else if isSchemeChar c then
      (scanScheme rest).map (fun p => (c :: p.1, p.2))
    else none

/-- A character that terminates the netloc component. -/
def netlocEnd (c : Char) : Bool :=
  c == '/' || c == '?' || c == '#'

/-- Result of `urllib.parse.urlparse`: the three fields the source reads. -/
structure UrlParts where
  scheme : String
  netloc : String
  path : String
deriving DecidableEq, Repr

/-- Split `rest` (the part after `scheme ':'`) into netloc and path. -/
def parseNetlocPath (rest : List Char) : List Char × List Char :=
  if rest.take 2 = ['/', '/'] then
    let r := rest.drop 2
    (r.takeWhile (fun c => !netlocEnd c), r.dropWhile (fun c => !netlocEnd c))
  else ([], rest)

/-- Models `urllib.parse.urlparse` on the URIs this backend handles. -/
def urlparse (uri : String) : UrlParts :=
  let l := uri.toList
  match scanScheme l with
  | some (sch, rest) =>
    if sch ≠ [] ∧ (sch.headD ' ').isAlpha then
      let np := parseNetlocPath rest
      ⟨String.mk (sch.map Char.toLower), String.mk np.1, String.mk np.2⟩
    else
      let np := parseNetlocPath l
      ⟨"", String.mk np.1, String.mk np.2⟩
  | none =>
    let np := parseNetlocPath l
    ⟨"", String.mk np.1, String.mk np.2⟩

/-! ## botocore client-side bucket-name validation

`S3Storage._bucketExists` calls `head_bucket(Bucket=uri)` and treats
`botocore.exceptions.ParamValidationError` as "no such bucket".  botocore
validates the `Bucket` parameter client-side before any request is sent
(`botocore.handlers.validate_bucket_name`, regex `^[a-zA-Z0-9.\-_]{1,255}$`)
and raises `ParamValidationError` when the name fails; a syntactically valid
name that names no bucket instead produces a 404 `ClientError` from the
service, which `_bucketExists` does not catch. -/

/-- A character accepted by botocore's bucket-name validation regex. -/
def validBucketChar (c : Char) : Bool :=
  c.isAlphanum || c == '.' || c == '-' || c == '_'

/-- botocore's client-side `Bucket` parameter validation. -/
def validBucketName (s : String) : Bool :=
  decide (1 ≤ s.toList.length) && decide (s.toList.length ≤ 255)
    && s.toList.all validBucketChar

/-! ## The S3Storage backend -/

/-- The state a constructed `S3Storage` instance carries: the bucket name the
constructor extracted from the URI (`self.bucketName`; `self.bucket` is the
handle `self.s3.Bucket(self.bucketName)`). -/
structure S3Storage where
  bucketName : String
deriving DecidableEq, Repr

/-- Models `S3Storage._bucketExists(uri)`: `head_bucket(Bucket=uri)` with
`ParamValidationError` caught and turned into `False`; any `ClientError`
(e.g. 404 for a validly named but absent bucket) escapes uncaught. -/
def S3Storage.bucketExists (w : World) (uri : String) : Except S3Error Bool :=
  if validBucketName uri then
    if (w.find? (fun e => e.1 == uri)).isSome then .ok true
    else .error .clientError
  else .ok false

/-- Models `S3Storage.__init__(uri, create)`: check the scheme
case-insensitively, extract the bucket name from the netloc (two-slash form)
or from the path with leading slashes stripped (three-or-more-slash form),
then check existence — note the source passes the full `uri`, not the bucket
name, to `_bucketExists` — and either create the bucket or raise
`NoRepositroyAtRoot`.  Returns the possibly extended world and the instance. -/
def S3Storage.construct (w : World) (uri : String) (create : Bool) :
    Except S3Error (World × S3Storage) :=
  let parseRes := urlparse uri
  if pyUpper parseRes.scheme ≠ "S3" then .error .schemeError
  else
    let bucketName :=
      String.mk (lstripSlash
        (if parseRes.netloc = "" then parseRes.path else parseRes.netloc).toList)
    match S3Storage.bucketExists w uri with
    | .error e => .error e
    | .ok true => .ok (w, ⟨bucketName⟩)
    | .ok false =>
      if create then .ok (create_bucket w bucketName, ⟨bucketName⟩)
      else .error .noRepositroyAtRoot

/-! ## Locations, formatter registry, write/read -/

/-- The fields of `dafPersist.ButlerLocation` the embedded code reads:
the declared python type (a type tag; `None` allowed) and the location list. -/
structure ButlerLocation where
  pythonType : Option String
  locations : List String

/-- A write formatter: receives the bucket, the location and the object,
returns the updated bucket (`writeFormatter(self.bucket, butlerLocation, obj)`). -/
abbrev WriteFormatter (Val : Type) := Bucket → ButlerLocation → Val → Bucket

/-- A read formatter: receives the bucket and the location, returns a list of
decoded values or `none` when the target key is absent. -/
abbrev ReadFormatter (Val : Type) := Bucket → ButlerLocation → Option (List Val)

/-- Modelled from the spec: the FormatterRegistry kept by
`dafPersist.StorageInterface` (`registerFormatters` / `getWriteFormatter` /
`getReadFormatter`), which lives in `lsst.daf.persistence`, not in this
repository — a process-wide mapping from a type tag to its reader and writer. -/
structure Registry (Val : Type) where
  writeFormatters : List (String × WriteFormatter Val)
  readFormatters : List (String × ReadFormatter Val)

/-- Modelled from the spec: `getWriteFormatter` — pure lookup by type tag. -/
def Registry.getWriteFormatter (r : Registry Val) (t : String) :
    Option (WriteFormatter Val) :=
  (r.writeFormatters.find? (fun e => e.1 == t)).map (fun e => e.2)

/-- Modelled from the spec: `getReadFormatter` — pure lookup by type tag. -/
def Registry.getReadFormatter (r : Registry Val) (t : String) :
    Option (ReadFormatter Val) :=
  (r.readFormatters.find? (fun e => e.1 == t)).map (fun e => e.2)

/-- Models `S3Storage.write(butlerLocation, obj)`: look up the write formatter
for `type(obj)`; raise `RuntimeError` if none; else invoke it with the bucket,
the location and the object and return its effect unchanged. -/
def S3Storage.write (typeOf : Val → String) (reg : Registry Val) (b : Bucket)
    (butlerLocation : ButlerLocation) (obj : Val) : Except S3Error Bucket :=
  match reg.getWriteFormatter (typeOf obj) with
  | none => .error .noWriteFormatter
  | some writeFormatter => .ok (writeFormatter b butlerLocation obj)

/-- Models `S3Storage.read(butlerLocation)`: look up the read formatter for
`butlerLocation.getPythonType()`; raise `RuntimeError` if none; else invoke it
with the bucket and the location and surface its result unchanged. -/
def S3Storage.read (reg : Registry Val) (b : Bucket)
    (butlerLocation : ButlerLocation) : Except S3Error (Option (List Val)) :=
  match butlerLocation.pythonType.bind (fun t => reg.getReadFormatter t) with
  | none => .error .noReadFormatter
  | some readFormatter => .ok (readFormatter b butlerLocation)

/-- Models `S3Storage.exists(location)` (`exists` is a Lean keyword, hence the
name): take `location.getLocations()[0]` — an `IndexError` when the location
list is empty — list the bucket by that prefix, and return true iff some
listed key equals the object name exactly. -/
def S3Storage.existsLoc (b : Bucket) (locations : List String) :
    Except S3Error Bool :=
  match locations with
  | [] => .error .indexError
  | objectName :: _ =>
    .ok ((objectsFilter b objectName).any (fun k => objectName == k))

/-- Models `S3Storage.instanceSearch(path)`: if `path` ends with `']'`, strip
from the last `'['` on (`path[:path.rfind('[')]`); build a one-element
location list from the stripped path and report whether it exists. -/
def S3Storage.instanceSearch (b : Bucket) (path : String) :
    Except S3Error Bool :=
  let strippedPath :=
    if path.toList.getLast? = some ']' then
      String.mk (pySliceTo path.toList (pyRfind path.toList '['))
    else path
  S3Storage.existsLoc b [strippedPath]

/-- Models `S3Storage.copyFile(fromLocation, toLocation)`: a server-side copy
within the bound bucket; copying an absent source key raises `ClientError`. -/
def S3Storage.copyFile (b : Bucket) (fromLocation toLocation : String) :
    Except S3Error Bucket :=
  match download_file b fromLocation with
  | none => .error .clientError
  | some body => .ok (put_object b toLocation body)

/-! ## The test formatters (`tests/test_basics.py`)

`writeMyTestObject` pickles the object and `put_object`s it under
`butlerLocation.getLocations()[0]`; `readMyTestObject` downloads that key
(returning `None` on `ClientError`) and unpickles, wrapping in a one-element
list.  The pickle codec is external; it is abstracted as an
encoder/decoder pair. -/

/-- Models `writeMyTestObject` with `pickle.dump` abstracted as `enc`. -/
def writeMyTestObject (enc : Val → Bytes) : WriteFormatter Val :=
  fun bucket butlerLocation obj =>
    put_object bucket (butlerLocation.locations.headD "") (enc obj)

/-- Models `readMyTestObject` with `pickle.load` abstracted as `dec`. -/
def readMyTestObject (dec : Bytes → Val) : ReadFormatter Val :=
  fun bucket butlerLocation =>
    match download_file bucket (butlerLocation.locations.headD "") with
    | none => none
    | some body => some [dec body]

/-! ## Repository configuration (`fmtRepositoryCfg.py`) -/

/-- The fields of `dafPersist.RepositoryCfg` the embedded code reads: the
repository root URI and the mapper (an opaque tag here). -/
structure RepositoryCfg where
  root : String
  mapper : String
deriving DecidableEq, Repr

/-- `remoteCfgName = 'repositoryCfg.yaml'`. -/
def remoteCfgName : String := "repositoryCfg.yaml"

/-- Models `writeRepositoryCfg(bucket, butlerLocation, obj)`: YAML-dump the
cfg (abstracted as `encCfg`) and `put_object` it under `remoteCfgName`. -/
def writeRepositoryCfg (encCfg : RepositoryCfg → Bytes) (bucket : Bucket)
    (obj : RepositoryCfg) : Bucket :=
  put_object bucket remoteCfgName (encCfg obj)

/-- Models `readRepositoryCfg(bucket, butlerLocation)`: download
`'repositoryCfg.yaml'`, returning `None` on `ClientError` (absent key), else
YAML-load it (abstracted as `decCfg`). -/
def readRepositoryCfg (decCfg : Bytes → RepositoryCfg) (bucket : Bucket) :
    Option RepositoryCfg :=
  match download_file bucket "repositoryCfg.yaml" with
  | none => none
  | some body => some (decCfg body)

/-- Models `S3Storage.putRepositoryCfg(cfg, loc=None)`:
`Storage.makeFromURI(cfg.root if loc is None else loc, create=True)` — which
dispatches to `S3Storage.construct` for `s3` URIs — then `storage.write`
with the cfg, whose formatter lookup resolves to `writeRepositoryCfg`
(registered at import of `fmtRepositoryCfg`). -/
def S3Storage.putRepositoryCfg (encCfg : RepositoryCfg → Bytes) (w : World)
    (cfg : RepositoryCfg) (loc : Option String) : Except S3Error World :=
  match S3Storage.construct w (loc.getD cfg.root) true with
  | .error e => .error e
  | .ok (w1, storage) =>
    match getBucket w1 storage.bucketName with
    | none => .error .clientError
    | some b =>
      .ok (setBucket w1 storage.bucketName (writeRepositoryCfg encCfg b cfg))

/-- Models `S3Storage.getRepositoryCfg(uri)`: `Storage.makeFromURI(uri)` —
modelled from the spec: `makeFromURI` lives in `lsst.daf.persistence`, not in
this repository, and constructs the backend transiently with creation allowed
(its `create` parameter defaults to true) — then `storage.read` at the
canonical key, whose formatter lookup resolves to `readRepositoryCfg`.
Returns the possibly extended world and the decoded cfg or `none`. -/
def S3Storage.getRepositoryCfg (decCfg : Bytes → RepositoryCfg) (w : World)
    (uri : String) : Except S3Error (World × Option RepositoryCfg) :=
  match S3Storage.construct w uri true with
  | .error e => .error e
  | .ok (w1, storage) =>
    match getBucket w1 storage.bucketName with
    | none => .error .clientError
    | some b => .ok (w1, readRepositoryCfg decCfg b)

/-- Models `S3Storage.getMapperClass(root)`: read the cfg at `root`; raise
`NoRepositroyAtRoot` when it is absent; else return `cfg.mapper`. -/
def S3Storage.getMapperClass (decCfg : Bytes → RepositoryCfg) (w : World)
    (root : String) : Except S3Error String :=
  match S3Storage.getRepositoryCfg decCfg w root with
  | .error e => .error e
  | .ok (_, none) => .error .noRepositroyAtRoot
  | .ok (_, some cfg) => .ok cfg.mapper

/-- A key `k` is stored (exactly) in the bucket. -/
def hasKey (b : Bucket) (k : String) : Prop :=
  ∃ e ∈ b, e.1 = k

instance (b : Bucket) (k : String) : Decidable (hasKey b k) := by
  unfold hasKey; infer_instance

/-! ## Helper lemmas about the bucket primitives -/

theorem download_file_put_self (b : Bucket) (k : String) (body : Bytes) :
    download_file (put_object b k body) k = some body := by
  simp [download_file, put_object, List.find?]

theorem find?_filter_ne (k k2 : String) (h : k2 ≠ k) (b : Bucket) :
    List.find? (fun e => e.1 == k2) (b.filter (fun e => !(e.1 == k)))
      = List.find? (fun e => e.1 == k2) b := by
  induction b with
  | nil => rfl
  | cons e t ih =>
    rw [List.filter_cons]
    by_cases he : e.1 = k
    · have h1 : (!(e.1 == k)) = false := by simp [he]
      have h2 : (e.1 == k2) = false := by
        rw [beq_eq_false_iff_ne, he]
        exact fun hk => h hk.symm
      simp only [h1, Bool.false_eq_true, if_false, List.find?_cons, h2]
      exact ih
    · have h1 : (!(e.1 == k)) = true := by simp [he]
      simp only [h1, if_true, List.find?_cons]
      cases hp : (e.1 == k2) with
      | true => rfl
      | false => exact ih

theorem download_file_put_other (b : Bucket) (k k2 : String) (body : Bytes)
    (h : k2 ≠ k) : download_file (put_object b k body) k2 = download_file b k2 := by
  unfold download_file put_object
  rw [List.find?_cons]
  have hk : ((k, body).1 == k2) = false := by
    simpa using fun hk => h hk.symm
  rw [hk]
  rw [find?_filter_ne k k2 h b]

theorem isPrefixOf_self (l : List Char) : l.isPrefixOf l = true := by
  induction l with
  | nil => rfl
  | cons a t ih => simp [List.isPrefixOf, ih]

theorem getBucket_set_self (w : World) (n : String) (b : Bucket) :
    getBucket (setBucket w n b) n = some b := by
  simp [getBucket, setBucket, List.find?]

theorem create_bucket_present (w : World) (n : String)
    (h : (getBucket w n).isSome) : create_bucket w n = w := by
  unfold create_bucket
  rw [if_pos]
  simpa [getBucket] using h

theorem getBucket_create_bucket (w : World) (n : String) :
    ∃ b, getBucket (create_bucket w n) n = some b := by
  unfold create_bucket
  by_cases h : (List.find? (fun e => e.1 == n) w).isSome
  · rw [if_pos h]
    obtain ⟨e, he⟩ := Option.isSome_iff_exists.mp h
    exact ⟨e.2, by unfold getBucket; rw [he]; rfl⟩
  · rw [if_neg h]
    exact ⟨[], by simp [getBucket, List.find?]⟩

/-! ## Helper lemmas about `existsLoc` -/

theorem existsLoc_cons_iff (b : Bucket) (k : String) (rest : List String) :
    S3Storage.existsLoc b (k :: rest) = .ok true ↔ hasKey b k := by
  unfold S3Storage.existsLoc objectsFilter hasKey
  simp only [Except.ok.injEq, List.any_eq_true, List.mem_filter, List.mem_map,
    beq_iff_eq]
  constructor
  · rintro ⟨x, ⟨⟨e, he, hx⟩, _⟩, hkx⟩
    exact ⟨e, he, by rw [hx, ← hkx]⟩
  · rintro ⟨e, he, hk⟩
    exact ⟨k, ⟨⟨e, he, hk⟩, isPrefixOf_self _⟩, rfl⟩

/-! ## Helper lemmas about `rfind`, slicing and `instanceSearch` -/

theorem pyRfind_of_not_mem (l : List Char) (c : Char) (h : c ∉ l) :
    pyRfind l c = -1 := by
  induction l with
  | nil => rfl
  | cons a t ih =>
    have ha : ¬a = c := fun hac => h (hac ▸ List.mem_cons_self a t)
    have ht : c ∉ t := fun hm => h (List.mem_cons_of_mem a hm)
    unfold pyRfind
    rw [ih ht]
    simp [ha]

theorem pyRfind_append_last (a t : List Char) (c : Char) (h : c ∉ t) :
    pyRfind (a ++ c :: t) c = (a.length : Int) := by
  induction a with
  | nil =>
    simp only [List.nil_append]
    unfold pyRfind
    rw [pyRfind_of_not_mem t c h]
    simp
  | cons x a2 ih =>
    have hnn : pyRfind (a2 ++ c :: t) c ≥ 0 := by rw [ih]; exact Int.ofNat_nonneg _
    show pyRfind (x :: (a2 ++ c :: t)) c = _
    unfold pyRfind
    rw [if_pos (by rw [ih]; exact Int.ofNat_nonneg _)]
    rw [ih]
    simp [Int.add_comm]

theorem pySliceTo_length_append (a t : List Char) :
    pySliceTo (a ++ t) (a.length : Int) = a := by
  unfold pySliceTo
  rw [if_neg (by simp)]
  simp [List.take_left]

theorem pySliceTo_neg_one (l : List Char) : pySliceTo l (-1) = l.dropLast := by
  unfold pySliceTo
  rw [if_pos (by decide)]
  simp [List.dropLast_eq_take]

theorem instanceSearch_of_last_rb (b : Bucket) (path : String)
    (h : path.toList.getLast? = some ']') :
    S3Storage.instanceSearch b path
      = S3Storage.existsLoc b
          [String.mk (pySliceTo path.toList (pyRfind path.toList '['))] := by
  unfold S3Storage.instanceSearch
  rw [if_pos h]

theorem instanceSearch_of_last_ne_rb (b : Bucket) (path : String)
    (h : path.toList.getLast? ≠ some ']') :
    S3Storage.instanceSearch b path = S3Storage.existsLoc b [path] := by
  unfold S3Storage.instanceSearch
  rw [if_neg h]

theorem strip_of_bracket (a t : List Char) (ht : '[' ∉ t) :
    pySliceTo (a ++ '[' :: t) (pyRfind (a ++ '[' :: t) '[') = a := by
  rw [pyRfind_append_last a t '[' ht]
  have : a ++ '[' :: t = a ++ ('[' :: t) := rfl
  rw [this, pySliceTo_length_append]

/-! ## Helper lemmas about URI parsing and construction -/

theorem validBucketChar_not_netlocEnd {c : Char} (h : validBucketChar c = true) :
    netlocEnd c = false := by
  by_cases h1 : c = '/'
  · rw [h1] at h; exact absurd h (by decide)
  · by_cases h2 : c = '?'
    · rw [h2] at h; exact absurd h (by decide)
    · by_cases h3 : c = '#'
      · rw [h3] at h; exact absurd h (by decide)
      · unfold netlocEnd
        simp [h1, h2, h3]

theorem validBucketChar_ne_slash {c : Char} (h : validBucketChar c = true) :
    (c == '/') = false := by
  cases hc : (c == '/') with
  | false => rfl
  | true =>
    exfalso
    rw [eq_of_beq hc] at h
    exact absurd h (by decide)

theorem takeWhile_all {p : Char → Bool} (l : List Char)
    (h : ∀ c ∈ l, p c = true) : l.takeWhile p = l := by
  induction l with
  | nil => rfl
  | cons a t ih =>
    rw [List.takeWhile_cons, if_pos (h a (List.mem_cons_self a t)),
      ih (fun c hc => h c (List.mem_cons_of_mem a hc))]

theorem lstripSlash_of_valid (b : List Char)
    (h : ∀ c ∈ b, validBucketChar c = true) : lstripSlash b = b := by
  cases b with
  | nil => rfl
  | cons a t =>
    unfold lstripSlash
    have heq : (a == '/') = false :=
      validBucketChar_ne_slash (h a (List.mem_cons_self a t))
    simp [List.dropWhile_cons, heq]

theorem stringMk_eq_empty_iff (l : List Char) : String.mk l = "" ↔ l = [] := by
  constructor
  · intro h
    have := congrArg String.data h
    simpa using this
  · intro h
    rw [h]

theorem scanScheme_colon_mem (l s r : List Char)
    (h : scanScheme l = some (s, r)) : ':' ∈ l := by
  induction l generalizing s r with
  | nil => exact absurd h (by simp [scanScheme])
  | cons c t ih =>
    unfold scanScheme at h
    by_cases hc : (c == ':') = true
    · rw [eq_of_beq hc]
      exact List.mem_cons_self ':' t
    · rw [if_neg hc] at h
      by_cases hs : isSchemeChar c = true
      · rw [if_pos hs] at h
        cases hsc : scanScheme t with
        | none => rw [hsc] at h; exact absurd h (by simp)
        | some p =>
          exact List.mem_cons_of_mem c
            (ih p.1 p.2 (by rw [hsc, Prod.mk.eta]))
      · rw [if_neg hs] at h
        exact absurd h (by simp)

theorem validBucketName_false_of_colon (s : String) (h : ':' ∈ s.toList) :
    validBucketName s = false := by
  cases hv : validBucketName s with
  | false => rfl
  | true =>
    exfalso
    unfold validBucketName at hv
    simp only [Bool.and_eq_true, List.all_eq_true] at hv
    exact absurd (hv.2 ':' h) (by decide)

theorem urlparse_scheme_colon (uri : String)
    (h : (urlparse uri).scheme ≠ "") : ':' ∈ uri.toList := by
  cases hsc : scanScheme uri.toList with
  | none =>
    exfalso
    apply h
    simp only [urlparse]
    rw [hsc]
  | some p => exact scanScheme_colon_mem _ p.1 p.2 (by rw [hsc, Prod.mk.eta])

theorem construct_true_error (w : World) (uri : String) (e : S3Error)
    (h : S3Storage.construct w uri true = .error e) : e = .schemeError := by
  simp only [S3Storage.construct] at h
  by_cases hs : pyUpper (urlparse uri).scheme = "S3"
  · rw [if_neg (not_not_intro hs)] at h
    have hne : (urlparse uri).scheme ≠ "" := by
      intro h0
      rw [h0] at hs
      exact absurd hs (by decide)
    have hvb := validBucketName_false_of_colon uri (urlparse_scheme_colon uri hne)
    have hbe : S3Storage.bucketExists w uri = .ok false := by
      unfold S3Storage.bucketExists
      rw [if_neg (by rw [hvb]; exact Bool.false_ne_true)]
    rw [hbe] at h
    exact absurd h (by simp)
  · rw [if_pos hs] at h
    have := Except.error.inj h
    exact this.symm

theorem takeWhile_not_netlocEnd (b : List Char)
    (hb2 : ∀ c ∈ b, validBucketChar c = true) :
    b.takeWhile (fun c => !netlocEnd c) = b :=
  takeWhile_all b (fun c hc => by
    rw [validBucketChar_not_netlocEnd (hb2 c hc)]
    rfl)

theorem lstripSlash_toList (b : List Char)
    (hb2 : ∀ c ∈ b, validBucketChar c = true) :
    lstripSlash ((String.mk b).toList) = b := by
  have h0 : (String.mk b).toList = b := rfl
  rw [h0]
  exact lstripSlash_of_valid b hb2

theorem construct_s3_two (w : World) (b : List Char) (hb1 : b ≠ [])
    (hb2 : ∀ c ∈ b, validBucketChar c = true) :
    S3Storage.construct w (String.mk ('s' :: '3' :: ':' :: '/' :: '/' :: b)) true
      = .ok (create_bucket w (String.mk b), ⟨String.mk b⟩) := by
  have hparse : urlparse (String.mk ('s' :: '3' :: ':' :: '/' :: '/' :: b))
      = ⟨"s3", String.mk b, String.mk (b.dropWhile (fun c => !netlocEnd c))⟩ := by
    rw [show urlparse (String.mk ('s' :: '3' :: ':' :: '/' :: '/' :: b))
        = ⟨"s3", String.mk (b.takeWhile (fun c => !netlocEnd c)),
            String.mk (b.dropWhile (fun c => !netlocEnd c))⟩ from rfl,
      takeWhile_not_netlocEnd b hb2]
  have hvb : validBucketName (String.mk ('s' :: '3' :: ':' :: '/' :: '/' :: b))
      = false := validBucketName_false_of_colon _ (by simp)
  have hbe : S3Storage.bucketExists w
      (String.mk ('s' :: '3' :: ':' :: '/' :: '/' :: b)) = .ok false := by
    unfold S3Storage.bucketExists
    rw [if_neg (by rw [hvb]; exact Bool.false_ne_true)]
  have hne : ¬(String.mk b = "") := fun h0 => hb1 ((stringMk_eq_empty_iff b).mp h0)
  have hcond : ¬(pyUpper (urlparse
      (String.mk ('s' :: '3' :: ':' :: '/' :: '/' :: b))).scheme ≠ "S3") := by
    rw [hparse]
    show ¬(pyUpper "s3" ≠ "S3")
    decide
  simp only [S3Storage.construct]
  rw [if_neg hcond]
  simp only [hparse]
  rw [if_neg hne, lstripSlash_toList b hb2, hbe]
  rfl

theorem construct_S3_two (w : World) (b : List Char) (hb1 : b ≠ [])
    (hb2 : ∀ c ∈ b, validBucketChar c = true) :
    S3Storage.construct w (String.mk ('S' :: '3' :: ':' :: '/' :: '/' :: b)) true
      = .ok (create_bucket w (String.mk b), ⟨String.mk b⟩) := by
  have hparse : urlparse (String.mk ('S' :: '3' :: ':' :: '/' :: '/' :: b))
      = ⟨"s3", String.mk b, String.mk (b.dropWhile (fun c => !netlocEnd c))⟩ := by
    rw [show urlparse (String.mk ('S' :: '3' :: ':' :: '/' :: '/' :: b))
        = ⟨"s3", String.mk (b.takeWhile (fun c => !netlocEnd c)),
            String.mk (b.dropWhile (fun c => !netlocEnd c))⟩ from rfl,
      takeWhile_not_netlocEnd b hb2]
  have hvb : validBucketName (String.mk ('S' :: '3' :: ':' :: '/' :: '/' :: b))
      = false := validBucketName_false_of_colon _ (by simp)
  have hbe : S3Storage.bucketExists w
      (String.mk ('S' :: '3' :: ':' :: '/' :: '/' :: b)) = .ok false := by
    unfold S3Storage.bucketExists
    rw [if_neg (by rw [hvb]; exact Bool.false_ne_true)]
  have hne : ¬(String.mk b = "") := fun h0 => hb1 ((stringMk_eq_empty_iff b).mp h0)
  have hcond : ¬(pyUpper (urlparse
      (String.mk ('S' :: '3' :: ':' :: '/' :: '/' :: b))).scheme ≠ "S3") := by
    rw [hparse]
    show ¬(pyUpper "s3" ≠ "S3")
    decide
  simp only [S3Storage.construct]
  rw [if_neg hcond]
  simp only [hparse]
  rw [if_neg hne, lstripSlash_toList b hb2, hbe]
  rfl

theorem construct_s3_three (w : World) (b : List Char) (hb1 : b ≠ [])
    (hb2 : ∀ c ∈ b, validBucketChar c = true) :
    S3Storage.construct w
      (String.mk ('s' :: '3' :: ':' :: '/' :: '/' :: '/' :: b)) true
      = .ok (create_bucket w (String.mk b), ⟨String.mk b⟩) := by
  have hparse : urlparse (String.mk ('s' :: '3' :: ':' :: '/' :: '/' :: '/' :: b))
      = ⟨"s3", "", String.mk ('/' :: b)⟩ := rfl
  have hvb : validBucketName
      (String.mk ('s' :: '3' :: ':' :: '/' :: '/' :: '/' :: b)) = false :=
    validBucketName_false_of_colon _ (by simp)
  have hbe : S3Storage.bucketExists w
      (String.mk ('s' :: '3' :: ':' :: '/' :: '/' :: '/' :: b)) = .ok false := by
    unfold S3Storage.bucketExists
    rw [if_neg (by rw [hvb]; exact Bool.false_ne_true)]
  have hcond : ¬(pyUpper (urlparse
      (String.mk ('s' :: '3' :: ':' :: '/' :: '/' :: '/' :: b))).scheme ≠ "S3") := by
    rw [hparse]
    show ¬(pyUpper "s3" ≠ "S3")
    decide
  simp only [S3Storage.construct]
  rw [if_neg hcond]
  simp only [hparse, if_true]
  rw [show (String.mk ('/' :: b)).toList = '/' :: b from rfl]
  rw [show lstripSlash ('/' :: b) = lstripSlash b from by
        unfold lstripSlash
        rw [List.dropWhile_cons, if_pos (by decide)]]
  rw [lstripSlash_of_valid b hb2, hbe]

/-! ## Equation lemmas for the dispatch layer and the repository-cfg layer -/

theorem read_some_tag {Val : Type} (reg : Registry Val) (b : Bucket)
    (t : String) (locs : List String) :
    S3Storage.read reg b ⟨some t, locs⟩
      = match reg.getReadFormatter t with
        | none => .error .noReadFormatter
        | some rf => .ok (rf b ⟨some t, locs⟩) := rfl

theorem writeMyTestObject_eq {Val : Type} (enc : Val → Bytes) (b : Bucket)
    (t? : Option String) (key : String) (rest : List String) (v : Val) :
    writeMyTestObject enc b ⟨t?, key :: rest⟩ v = put_object b key (enc v) := rfl

theorem readMyTestObject_eq {Val : Type} (dec : Bytes → Val) (b : Bucket)
    (t? : Option String) (key : String) (rest : List String) :
    readMyTestObject dec b ⟨t?, key :: rest⟩
      = match download_file b key with
        | none => none
        | some body => some [dec body] := rfl

theorem readRepositoryCfg_write (decCfg : Bytes → RepositoryCfg)
    (encCfg : RepositoryCfg → Bytes) (b : Bucket) (cfg : RepositoryCfg) :
    readRepositoryCfg decCfg (writeRepositoryCfg encCfg b cfg)
      = some (decCfg (encCfg cfg)) := by
  unfold readRepositoryCfg writeRepositoryCfg
  rw [show ("repositoryCfg.yaml" : String) = remoteCfgName from rfl,
    download_file_put_self]

/-! ## The claims -/

/-- C1: the claim says construction with `create=False` raises
`NoRepositroyAtRoot` **iff** the target bucket does not exist.  The code
passes the full URI — never a valid bucket name, because it contains `':'`
and `'/'` — to `head_bucket`, so `_bucketExists` always returns `False` and
construction with `create=False` raises even when the bucket exists.  This
theorem evaluates the embedded code at the failing input: the world holds an
existing bucket `my-bucket`, and yet construction fails. -/
theorem claim_C1_construct_existing_bucket_fails :
    getBucket [("my-bucket", [])] "my-bucket" = some []
    ∧ S3Storage.construct [("my-bucket", [])] "s3://my-bucket" false
        = .error .noRepositroyAtRoot
    ∧ validBucketName "s3://my-bucket" = false := by
  refine ⟨rfl, rfl, rfl⟩

/-- C2: `exists` on a location whose first resolved key is `k` returns true
iff some object with key exactly `k` is stored; in particular after storing
only `foo.fits`, `exists` is true for `foo.fits` and false for `foo.fits1`. -/
theorem claim_C2_exists_exact_match (bucket : Bucket) (k : String)
    (rest : List String) :
    (S3Storage.existsLoc bucket (k :: rest) = .ok true ↔ hasKey bucket k)
    ∧ S3Storage.existsLoc [("foo.fits", [0])] ["foo.fits"] = .ok true
    ∧ S3Storage.existsLoc [("foo.fits", [0])] ["foo.fits1"] = .ok false :=
  ⟨existsLoc_cons_iff bucket k rest, rfl, rfl⟩

/-- C3: `instanceSearch ("p[n]")` with a bracketed numeric suffix `[n]`
reports true iff an object with key `p` exists (whether or not `p[n]` is a
literal key), and a path not ending in `']'` is checked unchanged. -/
theorem claim_C3_hdu_suffix (bucket : Bucket) (p n : List Char) (hn : n ≠ [])
    (hdig : ∀ c ∈ n, c.isDigit = true) :
    (S3Storage.instanceSearch bucket (String.mk (p ++ '[' :: (n ++ [']'])))
        = .ok true ↔ hasKey bucket (String.mk p))
    ∧ ∀ path : String, path.toList.getLast? ≠ some ']' →
        S3Storage.instanceSearch bucket path
          = S3Storage.existsLoc bucket [path] := by
  constructor
  · have hnotmem : '[' ∉ n ++ [']'] := by
      intro hm
      rcases List.mem_append.mp hm with hm | hm
      · exact absurd (hdig '[' hm) (by decide)
      · exact absurd (List.mem_singleton.mp hm) (by decide)
    have hlast : (p ++ '[' :: (n ++ [']'])).getLast? = some ']' := by
      rw [show p ++ '[' :: (n ++ [']']) = (p ++ '[' :: n) ++ [']'] from by
        simp [List.append_assoc]]
      exact List.getLast?_concat _
    rw [instanceSearch_of_last_rb bucket _ (by
      rw [show (String.mk (p ++ '[' :: (n ++ [']']))).toList
          = p ++ '[' :: (n ++ [']']) from rfl]
      exact hlast)]
    rw [show (String.mk (p ++ '[' :: (n ++ [']']))).toList
        = p ++ '[' :: (n ++ [']']) from rfl]
    rw [strip_of_bracket p (n ++ [']']) hnotmem]
    exact existsLoc_cons_iff bucket (String.mk p) []
  · intro path hpath
    exact instanceSearch_of_last_ne_rb bucket path hpath

/-- Witness for C3 at a concrete input: searching `foo.fits[1]` finds the
stored object `foo.fits`. -/
theorem claim_C3_hdu_suffix_witness :
    S3Storage.instanceSearch [("foo.fits", [0])]
      (String.mk ("foo.fits".toList ++ '[' :: (['1'] ++ [']']))) = .ok true :=
  (claim_C3_hdu_suffix [("foo.fits", [0])] "foo.fits".toList ['1']
    (by decide) (by decide)).1.mpr (by decide)

/-- C9: `exists` on a location with an empty location list fails with an
`IndexError` (it never returns `false` — or any boolean), while
`instanceSearch` always builds a one-element location list and therefore
always returns a boolean. -/
theorem claim_C9_empty_location_list (bucket : Bucket) :
    S3Storage.existsLoc bucket [] = .error .indexError
    ∧ (∀ r : Bool, S3Storage.existsLoc bucket [] ≠ .ok r)
    ∧ ∀ path : String, ∃ r : Bool,
        S3Storage.instanceSearch bucket path = .ok r := by
  refine ⟨rfl, ?_, ?_⟩
  · intro r h
    exact absurd h (by simp [S3Storage.existsLoc])
  · intro path
    simp only [S3Storage.instanceSearch]
    by_cases h : path.toList.getLast? = some ']'
    · rw [if_pos h]
      exact ⟨_, rfl⟩
    · rw [if_neg h]
      exact ⟨_, rfl⟩

/-- C10: the suffix stripping in `instanceSearch` is keyed only on the final
`']'` and the last `'['`: a path ending in `']'` with a last `'['` loses
everything from that `'['` on, even non-numeric content, and a path ending in
`']'` with no `'['` at all loses only the final character. -/
theorem claim_C10_strip_nonnumeric (bucket : Bucket) (a t : List Char)
    (ht : '[' ∉ t) (hend : (a ++ '[' :: t).getLast? = some ']') :
    S3Storage.instanceSearch bucket (String.mk (a ++ '[' :: t))
      = S3Storage.existsLoc bucket [String.mk a]
    ∧ ∀ l : List Char, '[' ∉ l → l.getLast? = some ']' →
        S3Storage.instanceSearch bucket (String.mk l)
          = S3Storage.existsLoc bucket [String.mk l.dropLast] := by
  constructor
  · rw [instanceSearch_of_last_rb bucket _ (by
      rw [show (String.mk (a ++ '[' :: t)).toList = a ++ '[' :: t from rfl]
      exact hend)]
    rw [show (String.mk (a ++ '[' :: t)).toList = a ++ '[' :: t from rfl]
    rw [strip_of_bracket a t ht]
  · intro l hl hlast
    rw [instanceSearch_of_last_rb bucket _ (by
      rw [show (String.mk l).toList = l from rfl]
      exact hlast)]
    rw [show (String.mk l).toList = l from rfl]
    rw [pyRfind_of_not_mem l '[' hl, pySliceTo_neg_one]

/-- Witness for C10 at concrete inputs: `foo[bar]` searches for `foo`, and
`foo]` searches for `foo` as well. -/
theorem claim_C10_strip_nonnumeric_witness :
    S3Storage.instanceSearch [("foo", [0])]
        (String.mk ("foo".toList ++ '[' :: "bar]".toList))
      = S3Storage.existsLoc [("foo", [0])] [String.mk "foo".toList]
    ∧ S3Storage.instanceSearch [("foo", [0])] (String.mk "foo]".toList)
      = S3Storage.existsLoc [("foo", [0])]
          [String.mk ("foo]".toList.dropLast)] :=
  ⟨(claim_C10_strip_nonnumeric [("foo", [0])] "foo".toList "bar]".toList
      (by decide) (by decide)).1,
   (claim_C10_strip_nonnumeric [("foo", [0])] "foo".toList "bar]".toList
      (by decide) (by decide)).2 "foo]".toList (by decide) (by decide)⟩

/-- C5: with the test formatters registered for the relevant type tags (the
writer stores the encoded value at the location's first key; the reader
decodes the bytes at that key), writing `v` at key `A`, copying `A` to a
distinct key `Acopy`, then reading at `Acopy` yields `v`; and a subsequent
write of any value to `A` leaves the value read from `Acopy` unchanged —
the copy is a snapshot of the bytes, not a reference. -/
theorem claim_C5_copy_independence {Val : Type} (typeOf : Val → String)
    (reg : Registry Val) (enc enc2 : Val → Bytes) (dec : Bytes → Val)
    (v v2 : Val) (tagv : String) (A Acopy : String) (hne : A ≠ Acopy)
    (hwf : reg.getWriteFormatter (typeOf v) = some (writeMyTestObject enc))
    (hwf2 : reg.getWriteFormatter (typeOf v2) = some (writeMyTestObject enc2))
    (hrf : reg.getReadFormatter tagv = some (readMyTestObject dec))
    (hdec : dec (enc v) = v)
    (b b1 b2 b3 : Bucket)
    (h1 : S3Storage.write typeOf reg b ⟨some tagv, [A]⟩ v = .ok b1)
    (h2 : S3Storage.copyFile b1 A Acopy = .ok b2)
    (h3 : S3Storage.write typeOf reg b2 ⟨some tagv, [A]⟩ v2 = .ok b3) :
    S3Storage.read reg b2 ⟨some tagv, [Acopy]⟩ = .ok (some [v])
    ∧ S3Storage.read reg b3 ⟨some tagv, [Acopy]⟩ = .ok (some [v]) := by
  have hb1 : b1 = put_object b A (enc v) := by
    unfold S3Storage.write at h1
    rw [hwf] at h1
    exact (Except.ok.inj h1).symm
  have hdl1 : download_file b1 A = some (enc v) := by
    rw [hb1]
    exact download_file_put_self b A (enc v)
  have hb2 : b2 = put_object b1 Acopy (enc v) := by
    unfold S3Storage.copyFile at h2
    rw [hdl1] at h2
    exact (Except.ok.inj h2).symm
  have hb3 : b3 = put_object b2 A (enc2 v2) := by
    unfold S3Storage.write at h3
    rw [hwf2] at h3
    exact (Except.ok.inj h3).symm
  have hdl2 : download_file b2 Acopy = some (enc v) := by
    rw [hb2]
    exact download_file_put_self b1 Acopy (enc v)
  constructor
  · rw [read_some_tag, hrf]
    show Except.ok (readMyTestObject dec b2 ⟨some tagv, [Acopy]⟩) = _
    rw [readMyTestObject_eq, hdl2]
    show Except.ok (some [dec (enc v)]) = _
    rw [hdec]
  · have hdl3 : download_file b3 Acopy = some (enc v) := by
      rw [hb3, download_file_put_other b2 A Acopy (enc2 v2)
        (fun hk => hne hk.symm)]
      exact hdl2
    rw [read_some_tag, hrf]
    show Except.ok (readMyTestObject dec b3 ⟨some tagv, [Acopy]⟩) = _
    rw [readMyTestObject_eq, hdl3]
    show Except.ok (some [dec (enc v)]) = _
    rw [hdec]

/-- Witness for C5 at a concrete registry: values are naturals with a trivial
codec, the write/copy/read chain is evaluated on explicit buckets. -/
theorem claim_C5_copy_independence_witness :
    S3Storage.read (⟨[("T", writeMyTestObject (fun n => [n]))],
        [("T", readMyTestObject (fun bts => bts.headD 0))]⟩ : Registry Nat)
      (put_object (put_object [] "a" [7]) "b" [7]) ⟨some "T", ["b"]⟩
      = .ok (some [7]) :=
  (claim_C5_copy_independence (fun _ : Nat => "T")
    ⟨[("T", writeMyTestObject (fun n => [n]))],
      [("T", readMyTestObject (fun bts => bts.headD 0))]⟩
    (fun n => [n]) (fun n => [n]) (fun bts => bts.headD 0)
    7 9 "T" "a" "b" (by decide) rfl rfl rfl rfl
    [] (put_object [] "a" [7]) (put_object (put_object [] "a" [7]) "b" [7])
    (put_object (put_object (put_object [] "a" [7]) "b" [7]) "a" [9])
    rfl rfl rfl).1

/-- C6: a write of a value whose type has no registered write formatter, and
a read at a location whose declared type has no registered read formatter,
fail with the corresponding `RuntimeError` — uniformly in the bucket, i.e.
without consulting the object store; with a registered formatter, the backend
invokes it with the bucket handle, the location (and the value, for write)
and surfaces its result unchanged. -/
theorem claim_C6_unsupported_type {Val : Type} (typeOf : Val → String)
    (reg : Registry Val) :
    (∀ v : Val, reg.getWriteFormatter (typeOf v) = none →
      ∀ (b : Bucket) (loc : ButlerLocation),
        S3Storage.write typeOf reg b loc v = .error .noWriteFormatter)
    ∧ (∀ loc : ButlerLocation,
        loc.pythonType.bind (fun t => reg.getReadFormatter t) = none →
        ∀ b : Bucket, S3Storage.read reg b loc = .error .noReadFormatter)
    ∧ (∀ (v : Val) (wf : WriteFormatter Val),
        reg.getWriteFormatter (typeOf v) = some wf →
        ∀ (b : Bucket) (loc : ButlerLocation),
          S3Storage.write typeOf reg b loc v = .ok (wf b loc v))
    ∧ (∀ (loc : ButlerLocation) (rf : ReadFormatter Val),
        loc.pythonType.bind (fun t => reg.getReadFormatter t) = some rf →
        ∀ b : Bucket, S3Storage.read reg b loc = .ok (rf b loc)) := by
  refine ⟨?_, ?_, ?_, ?_⟩
  · intro v hv b loc
    unfold S3Storage.write
    rw [hv]
  · intro loc hl b
    unfold S3Storage.read
    rw [hl]
  · intro v wf hv b loc
    unfold S3Storage.write
    rw [hv]
  · intro loc rf hl b
    unfold S3Storage.read
    rw [hl]

/-- Witness for C6: with an empty registry, write and read fail with the
formatter-lookup errors on concrete inputs. -/
theorem claim_C6_unsupported_type_witness :
    S3Storage.write (fun _ : Nat => "MyTestObject") ⟨[], []⟩ [("x", [1])]
        ⟨some "MyTestObject", ["k"]⟩ 7 = .error .noWriteFormatter
    ∧ S3Storage.read (⟨[], []⟩ : Registry Nat) [("x", [1])]
        ⟨some "MyTestObject", ["k"]⟩ = .error .noReadFormatter :=
  ⟨(claim_C6_unsupported_type (fun _ : Nat => "MyTestObject") ⟨[], []⟩).1
      7 rfl [("x", [1])] ⟨some "MyTestObject", ["k"]⟩,
   (claim_C6_unsupported_type (fun _ : Nat => "MyTestObject") ⟨[], []⟩).2.1
      ⟨some "MyTestObject", ["k"]⟩ rfl [("x", [1])]⟩

/-- C7: for a bucket name of valid bucket characters, the two-slash URI
`s3://b`, the three-slash URI `s3:///b` and the uppercase-scheme URI `S3://b`
all construct backends bound to the identical bucket name `b` (and, with
creation requested, the very same resulting world). -/
theorem claim_C7_slash_and_case_equivalence (w : World) (b : List Char)
    (hb1 : b ≠ []) (hb2 : ∀ c ∈ b, validBucketChar c = true) :
    S3Storage.construct w (String.mk ('s' :: '3' :: ':' :: '/' :: '/' :: b)) true
      = .ok (create_bucket w (String.mk b), ⟨String.mk b⟩)
    ∧ S3Storage.construct w
        (String.mk ('s' :: '3' :: ':' :: '/' :: '/' :: '/' :: b)) true
      = .ok (create_bucket w (String.mk b), ⟨String.mk b⟩)
    ∧ S3Storage.construct w (String.mk ('S' :: '3' :: ':' :: '/' :: '/' :: b)) true
      = .ok (create_bucket w (String.mk b), ⟨String.mk b⟩) :=
  ⟨construct_s3_two w b hb1 hb2, construct_s3_three w b hb1 hb2,
   construct_S3_two w b hb1 hb2⟩

/-- Witness for C7 at the concrete bucket name `b` and the empty world. -/
theorem claim_C7_slash_and_case_equivalence_witness :
    S3Storage.construct [] (String.mk ('s' :: '3' :: ':' :: '/' :: '/' :: ['b']))
        true = .ok (create_bucket [] (String.mk ['b']), ⟨String.mk ['b']⟩)
    ∧ S3Storage.construct []
        (String.mk ('s' :: '3' :: ':' :: '/' :: '/' :: '/' :: ['b'])) true
      = .ok (create_bucket [] (String.mk ['b']), ⟨String.mk ['b']⟩)
    ∧ S3Storage.construct []
        (String.mk ('S' :: '3' :: ':' :: '/' :: '/' :: ['b'])) true
      = .ok (create_bucket [] (String.mk ['b']), ⟨String.mk ['b']⟩) :=
  claim_C7_slash_and_case_equivalence [] ['b'] (by decide) (by decide)

/-! ## World-level lemmas for the repository-cfg operations -/

theorem putRepositoryCfg_eq (encCfg : RepositoryCfg → Bytes) (w : World)
    (cfg : RepositoryCfg) (nm : String) (b0 : Bucket)
    (hcon : S3Storage.construct w cfg.root true
      = .ok (create_bucket w nm, ⟨nm⟩))
    (hb0 : getBucket (create_bucket w nm) nm = some b0) :
    S3Storage.putRepositoryCfg encCfg w cfg none
      = .ok (setBucket (create_bucket w nm) nm
          (writeRepositoryCfg encCfg b0 cfg)) := by
  unfold S3Storage.putRepositoryCfg
  simp only [Option.getD_none, hcon, hb0]

theorem getRepositoryCfg_eq (decCfg : Bytes → RepositoryCfg) (w1 : World)
    (uri nm : String) (b1 : Bucket)
    (hcon : S3Storage.construct w1 uri true = .ok (w1, ⟨nm⟩))
    (hb : getBucket w1 nm = some b1) :
    S3Storage.getRepositoryCfg decCfg w1 uri
      = .ok (w1, readRepositoryCfg decCfg b1) := by
  unfold S3Storage.getRepositoryCfg
  simp only [hcon, hb]

theorem construct_true_ok (w : World) (uri : String) (w1 : World)
    (st : S3Storage) (h : S3Storage.construct w uri true = .ok (w1, st)) :
    w1 = create_bucket w st.bucketName
    ∧ ∃ b, getBucket w1 st.bucketName = some b := by
  simp only [S3Storage.construct] at h
  by_cases hs : pyUpper (urlparse uri).scheme = "S3"
  · rw [if_neg (not_not_intro hs)] at h
    have hne : (urlparse uri).scheme ≠ "" := by
      intro h0
      rw [h0] at hs
      exact absurd hs (by decide)
    have hvb := validBucketName_false_of_colon uri (urlparse_scheme_colon uri hne)
    have hbe : S3Storage.bucketExists w uri = .ok false := by
      unfold S3Storage.bucketExists
      rw [if_neg (by rw [hvb]; exact Bool.false_ne_true)]
    rw [hbe] at h
    simp only [if_true] at h
    have hp := Except.ok.inj h
    have hw1 : create_bucket w (String.mk (lstripSlash
        (if (urlparse uri).netloc = "" then (urlparse uri).path
          else (urlparse uri).netloc).toList)) = w1 := congrArg Prod.fst hp
    have hst : (⟨String.mk (lstripSlash
        (if (urlparse uri).netloc = "" then (urlparse uri).path
          else (urlparse uri).netloc).toList)⟩ : S3Storage) = st :=
      congrArg Prod.snd hp
    have hname : String.mk (lstripSlash
        (if (urlparse uri).netloc = "" then (urlparse uri).path
          else (urlparse uri).netloc).toList) = st.bucketName := by
      rw [← hst]
    rw [hname] at hw1
    refine ⟨hw1.symm, ?_⟩
    rw [hw1.symm]
    exact getBucket_create_bucket w st.bucketName
  · rw [if_pos hs] at h
    exact absurd h (by simp)

theorem getRepositoryCfg_not_error_noRepo (decCfg : Bytes → RepositoryCfg)
    (w : World) (uri : String) (e : S3Error)
    (h : S3Storage.getRepositoryCfg decCfg w uri = .error e) :
    e = .schemeError := by
  unfold S3Storage.getRepositoryCfg at h
  cases hc : S3Storage.construct w uri true with
  | error e2 =>
    rw [hc] at h
    have he2 := construct_true_error w uri e2 hc
    have : e2 = e := Except.error.inj h
    rw [← this, he2]
  | ok p =>
    obtain ⟨w1, st⟩ := p
    rw [hc] at h
    obtain ⟨hw1, b1, hb1⟩ := construct_true_ok w uri w1 st hc
    have h2 : (match getBucket w1 st.bucketName with
        | none => (Except.error .clientError :
            Except S3Error (World × Option RepositoryCfg))
        | some b => .ok (w1, readRepositoryCfg decCfg b)) = .error e := h
    rw [hb1] at h2
    exact absurd h2 (by simp)

theorem putget_round (encCfg : RepositoryCfg → Bytes)
    (decCfg : Bytes → RepositoryCfg) (w : World) (cfg : RepositoryCfg)
    (b : List Char)
    (hcon : ∀ w0 : World, S3Storage.construct w0 cfg.root true
      = .ok (create_bucket w0 (String.mk b), ⟨String.mk b⟩))
    (he : decCfg (encCfg cfg) = cfg) :
    ∃ w1, S3Storage.putRepositoryCfg encCfg w cfg none = .ok w1
      ∧ S3Storage.getRepositoryCfg decCfg w1 cfg.root = .ok (w1, some cfg) := by
  obtain ⟨b0, hb0⟩ := getBucket_create_bucket w (String.mk b)
  refine ⟨setBucket (create_bucket w (String.mk b)) (String.mk b)
      (writeRepositoryCfg encCfg b0 cfg),
    putRepositoryCfg_eq encCfg w cfg (String.mk b) b0 (hcon w) hb0, ?_⟩
  have hpresent := getBucket_set_self (create_bucket w (String.mk b))
    (String.mk b) (writeRepositoryCfg encCfg b0 cfg)
  have hcb : create_bucket (setBucket (create_bucket w (String.mk b))
      (String.mk b) (writeRepositoryCfg encCfg b0 cfg)) (String.mk b)
      = setBucket (create_bucket w (String.mk b)) (String.mk b)
          (writeRepositoryCfg encCfg b0 cfg) :=
    create_bucket_present _ _ (by rw [hpresent]; rfl)
  have hcon1 : S3Storage.construct (setBucket (create_bucket w (String.mk b))
      (String.mk b) (writeRepositoryCfg encCfg b0 cfg)) cfg.root true
      = .ok (setBucket (create_bucket w (String.mk b)) (String.mk b)
          (writeRepositoryCfg encCfg b0 cfg), ⟨String.mk b⟩) := by
    rw [hcon (setBucket (create_bucket w (String.mk b)) (String.mk b)
      (writeRepositoryCfg encCfg b0 cfg)), hcb]
  rw [getRepositoryCfg_eq decCfg _ cfg.root (String.mk b)
      (writeRepositoryCfg encCfg b0 cfg) hcon1 hpresent,
    readRepositoryCfg_write, he]

/-- C4: `putRepositoryCfg` with no location override followed by
`getRepositoryCfg` at `cfg.root` returns a configuration equal to `cfg`
(modulo the abstracted YAML codec round-trip), and a second put of a modified
configuration at the same root followed by a re-read returns the modified
value — the second put unconditionally overwrites the stored configuration
at the canonical key `repositoryCfg.yaml`. -/
theorem claim_C4_cfg_bootstrap (encCfg : RepositoryCfg → Bytes)
    (decCfg : Bytes → RepositoryCfg) (w : World) (cfg cfg2 : RepositoryCfg)
    (b : List Char) (hb1 : b ≠ []) (hb2 : ∀ c ∈ b, validBucketChar c = true)
    (hroot : cfg.root = String.mk ('s' :: '3' :: ':' :: '/' :: '/' :: b))
    (hroot2 : cfg2.root = cfg.root)
    (he1 : decCfg (encCfg cfg) = cfg) (he2 : decCfg (encCfg cfg2) = cfg2) :
    ∃ w1 w2,
      S3Storage.putRepositoryCfg encCfg w cfg none = .ok w1
      ∧ S3Storage.getRepositoryCfg decCfg w1 cfg.root = .ok (w1, some cfg)
      ∧ S3Storage.putRepositoryCfg encCfg w1 cfg2 none = .ok w2
      ∧ S3Storage.getRepositoryCfg decCfg w2 cfg2.root
          = .ok (w2, some cfg2) := by
  have hconAll : ∀ w0 : World, S3Storage.construct w0 cfg.root true
      = .ok (create_bucket w0 (String.mk b), ⟨String.mk b⟩) := fun w0 => by
    rw [hroot]
    exact construct_s3_two w0 b hb1 hb2
  have hconAll2 : ∀ w0 : World, S3Storage.construct w0 cfg2.root true
      = .ok (create_bucket w0 (String.mk b), ⟨String.mk b⟩) := fun w0 => by
    rw [hroot2]
    exact hconAll w0
  obtain ⟨w1, hput1, hget1⟩ := putget_round encCfg decCfg w cfg b hconAll he1
  obtain ⟨w2, hput2, hget2⟩ := putget_round encCfg decCfg w1 cfg2 b hconAll2 he2
  exact ⟨w1, w2, hput1, hget1, hput2, hget2⟩

/-- Witness for C4 at a concrete world, configuration and codec. -/
theorem claim_C4_cfg_bootstrap_witness :
    ∃ w1 w2,
      S3Storage.putRepositoryCfg
          (fun c => if c.mapper = "MapperA" then [0] else [1]) []
          ⟨"s3://b", "MapperA"⟩ none = .ok w1
      ∧ S3Storage.getRepositoryCfg
          (fun bts => if bts = [0] then ⟨"s3://b", "MapperA"⟩
            else ⟨"s3://b", "MapperB"⟩) w1
          (RepositoryCfg.mk "s3://b" "MapperA").root
          = .ok (w1, some ⟨"s3://b", "MapperA"⟩)
      ∧ S3Storage.putRepositoryCfg
          (fun c => if c.mapper = "MapperA" then [0] else [1]) w1
          ⟨"s3://b", "MapperB"⟩ none = .ok w2
      ∧ S3Storage.getRepositoryCfg
          (fun bts => if bts = [0] then ⟨"s3://b", "MapperA"⟩
            else ⟨"s3://b", "MapperB"⟩) w2
          (RepositoryCfg.mk "s3://b" "MapperB").root
          = .ok (w2, some ⟨"s3://b", "MapperB"⟩) :=
  claim_C4_cfg_bootstrap (fun c => if c.mapper = "MapperA" then [0] else [1])
    (fun bts => if bts = [0] then ⟨"s3://b", "MapperA"⟩
      else ⟨"s3://b", "MapperB"⟩)
    [] ⟨"s3://b", "MapperA"⟩ ⟨"s3://b", "MapperB"⟩ ['b']
    (by decide) (by decide) rfl rfl rfl rfl

/-- C8: `getMapperClass(root)` raises `NoRepositroyAtRoot` iff
`getRepositoryCfg(root)` returns the value-level `none`; when the latter
returns a configuration, `getMapperClass` returns its mapper field; and
`getRepositoryCfg` itself returns `none` — not an exception — whenever
construction reaches an existing bucket in which the canonical key
`repositoryCfg.yaml` is absent. -/
theorem claim_C8_get_mapper_class (decCfg : Bytes → RepositoryCfg) (w : World)
    (root : String) :
    (S3Storage.getMapperClass decCfg w root = .error .noRepositroyAtRoot
      ↔ ∃ w1, S3Storage.getRepositoryCfg decCfg w root = .ok (w1, none))
    ∧ (∀ (w1 : World) (cfg : RepositoryCfg),
        S3Storage.getRepositoryCfg decCfg w root = .ok (w1, some cfg) →
        S3Storage.getMapperClass decCfg w root = .ok cfg.mapper)
    ∧ (∀ (w1 : World) (st : S3Storage) (b : Bucket),
        S3Storage.construct w root true = .ok (w1, st) →
        getBucket w1 st.bucketName = some b →
        download_file b remoteCfgName = none →
        S3Storage.getRepositoryCfg decCfg w root = .ok (w1, none)) := by
  refine ⟨⟨?_, ?_⟩, ?_, ?_⟩
  · intro h
    cases hg : S3Storage.getRepositoryCfg decCfg w root with
    | error e =>
      exfalso
      have he := getRepositoryCfg_not_error_noRepo decCfg w root e hg
      unfold S3Storage.getMapperClass at h
      rw [hg] at h
      have h2 : e = .noRepositroyAtRoot := Except.error.inj h
      rw [he] at h2
      exact absurd h2 (by decide)
    | ok p =>
      obtain ⟨w1, r⟩ := p
      cases r with
      | none => exact ⟨w1, rfl⟩
      | some cfg =>
        exfalso
        unfold S3Storage.getMapperClass at h
        rw [hg] at h
        exact absurd h (by simp)
  · rintro ⟨w1, hw1⟩
    unfold S3Storage.getMapperClass
    rw [hw1]
  · intro w1 cfg hg
    unfold S3Storage.getMapperClass
    rw [hg]
  · intro w1 st b hcon hb hdl
    unfold S3Storage.getRepositoryCfg
    rw [hcon]
    show (match getBucket w1 st.bucketName with
      | none => (Except.error .clientError :
          Except S3Error (World × Option RepositoryCfg))
      | some bb => .ok (w1, readRepositoryCfg decCfg bb)) = .ok (w1, none)
    rw [hb]
    show Except.ok (w1, readRepositoryCfg decCfg b) = .ok (w1, none)
    unfold readRepositoryCfg
    rw [show ("repositoryCfg.yaml" : String) = remoteCfgName from rfl, hdl]

/-- Witness for C8: an empty world with a fresh bucket `b` yields the
value-level `none`, and `getMapperClass` then raises `NoRepositroyAtRoot`. -/
theorem claim_C8_get_mapper_class_witness :
    S3Storage.getRepositoryCfg (fun _ => ⟨"", ""⟩) [] "s3://b"
      = .ok ([("b", [])], none)
    ∧ S3Storage.getMapperClass (fun _ => ⟨"", ""⟩) [] "s3://b"
      = .error .noRepositroyAtRoot :=
  ⟨(claim_C8_get_mapper_class (fun _ => ⟨"", ""⟩) [] "s3://b").2.2
      [("b", [])] ⟨"b"⟩ [] rfl rfl rfl,
   (claim_C8_get_mapper_class (fun _ => ⟨"", ""⟩) [] "s3://b").1.mpr
      ⟨[("b", [])],
        (claim_C8_get_mapper_class (fun _ => ⟨"", ""⟩) [] "s3://b").2.2
          [("b", [])] ⟨"b"⟩ [] rfl rfl rfl⟩⟩

end DafFmtS3
